import Mathlib

/-!
Verification development for the MSG-to-PDF converter (`src/app.py`).

Strings of the Python source are embedded as `List Char` (Python strings
are sequences of Unicode code points).  The HTML scanning class
`HTMLToReportLab` is embedded as a state record plus one transition
function per handler method; the event stream delivered by the standard
tokenizer (`html.parser.HTMLParser`) is embedded as a list of tokens, and
a small tokenizer model turns concrete markup strings into that event
stream.  The `extract_msg` container opening, which is not part of the
repository sources, is modelled from the specification where a claim
needs it.
-/

/-! ## Text sanitizer (`clean_text`, src/app.py lines 88-101) -/

/-- The fixed list of invisible code points removed by `clean_text`
(`INVISIBLE_CHARS`, src/app.py lines 92-96). -/
def INVISIBLE_CHARS : List Char :=
  ['\u200B', '\u200C', '\u200D', '\uFEFF',
   '\u202A', '\u202B', '\u202C', '\u202D', '\u202E',
   '\u2060', '\x0B', '\x0C', '\u00AD']

/-- Python `t.replace(ch, "")` for a single code point `ch`: every occurrence of
`ch` is removed, all other characters are kept in order. -/
def removeChar (t : List Char) (ch : Char) : List Char :=
  match t with
  | [] => []
  | c :: cs => if c = ch then removeChar cs ch else c :: removeChar cs ch

/-- Function `clean_text` (src/app.py lines 88-101).  The argument is `Option` so
that the Python `None` argument case is representable; `if not t` is true
exactly for `None` and the empty string. -/
def clean_text (t : Option (List Char)) : List Char :=
  match t with
  | none => []
  | some s =>
    if s = [] then []
    else INVISIBLE_CHARS.foldl (fun acc ch => removeChar acc ch) s

/-! ## Email model builder (`msg_to_pdf_bytes`, src/app.py lines 126-134) -/

/-- The fields `msg_to_pdf_bytes` reads off the `extract_msg.Message`
object.  `none` stands for a Python `None` attribute. -/
structure MsgSource where
  sender : Option (List Char)
  toAddr : Option (List Char)
  cc : Option (List Char)
  subject : Option (List Char)
  date : Option (List Char)
  body : Option (List Char)
  htmlBody : Option (List Char)
deriving Repr, DecidableEq

/-- The normalized email entity assembled at src/app.py lines 126-134. -/
structure Email where
  sender : List Char
  toAddr : List Char
  cc : List Char
  subject : List Char
  sent_at : List Char
  plain_body : List Char
  markup_body : Option (List Char)
deriving Repr, DecidableEq

/-- Python `str(v) if v else ""`: a `None` or empty attribute becomes the empty
string (both are falsy in Python), any other string is kept. -/
def fieldStr (v : Option (List Char)) : List Char :=
  match v with
  | none => []
  | some s => if s = [] then [] else s

/-- The Email construction of `msg_to_pdf_bytes` (src/app.py lines
126-134): each text field is `clean_text(str(field) if field else "")`;
the markup body is `msg.htmlBody if hasattr(msg, 'htmlBody') and
msg.htmlBody else None`, with no `clean_text` on it. -/
def buildEmail (msg : MsgSource) : Email :=
  { sender := clean_text (some (fieldStr msg.sender))
    toAddr := clean_text (some (fieldStr msg.toAddr))
    cc := clean_text (some (fieldStr msg.cc))
    subject := clean_text (some (fieldStr msg.subject))
    sent_at := clean_text (some (fieldStr msg.date))
    plain_body := clean_text (some (fieldStr msg.body))
    markup_body :=
      match msg.htmlBody with
      | none => none
      | some s => if s = [] then none else some s }

/-! ## Sanitizer lemmas -/

theorem removeChar_eq_filter (t : List Char) (ch : Char) :
    removeChar t ch = t.filter (fun c => !(c == ch)) := by
  induction t with
  | nil => rfl
  | cons c cs ih =>
    simp only [removeChar, List.filter_cons, ih]
    by_cases h : c = ch <;> simp [h]

theorem foldl_removeChar_eq_filter (cs : List Char) (t : List Char) :
    cs.foldl (fun acc ch => removeChar acc ch) t
      = t.filter (fun c => !(cs.contains c)) := by
  induction cs generalizing t with
  | nil => simp
  | cons ch rest ih =>
    rw [List.foldl_cons, ih, removeChar_eq_filter, List.filter_filter]
    apply List.filter_congr
    intro c _
    by_cases h : c = ch <;> simp [h, List.contains_cons]

theorem clean_text_some_eq_filter (s : List Char) :
    clean_text (some s) = s.filter (fun c => !(INVISIBLE_CHARS.contains c)) := by
  by_cases h : s = []
  · subst h; rfl
  · simp only [clean_text, h, if_false]
    exact foldl_removeChar_eq_filter INVISIBLE_CHARS s

example : clean_text (some (("a\u200Bb").data)) = ("ab").data := by decide
example : clean_text none = [] := by decide
example : buildEmail ⟨none, none, none, none, none, none, some []⟩ =
    ⟨[], [], [], [], [], [], none⟩ := by decide

/-! ## Markup scanner (`HTMLToReportLab`, src/app.py lines 22-82)

`html.parser.HTMLParser` turns the markup string into a stream of
events; the class overrides `handle_starttag`, `handle_endtag` and
`handle_data`.  The event stream is embedded as `List Tok`.  Tag names
arrive already lower-cased, as the standard tokenizer delivers them; a
self-closing tag such as `<br/>` is delivered by `handle_startendtag` as
a start event followed by an end event. -/

inductive Tok where
  | starttag (tag : List Char)
  | endtag (tag : List Char)
  | txt (s : List Char)
deriving Repr, DecidableEq

/-- The mutable fields set up in `HTMLToReportLab.__init__`
(src/app.py lines 23-31).  `current_cell` is initialized to a list and
only ever reassigned to lists, so the Python guard
`self.current_cell is not None` in `handle_data` is always true and the
field is embedded as a plain list. -/
structure ParserState where
  text_parts : List (List Char)
  in_table : Bool
  table_data : List (List (List Char))
  current_row : List (List Char)
  current_cell : List (List Char)
  in_bold : Bool
  in_italic : Bool
deriving Repr, DecidableEq

def initState : ParserState :=
  { text_parts := [], in_table := false, table_data := [],
    current_row := [], current_cell := [], in_bold := false,
    in_italic := false }

def tableT : List Char := ['t', 'a', 'b', 'l', 'e']
def trT : List Char := ['t', 'r']
def tdT : List Char := ['t', 'd']
def thT : List Char := ['t', 'h']
def brT : List Char := ['b', 'r']
def bT : List Char := ['b']
def strongT : List Char := ['s', 't', 'r', 'o', 'n', 'g']
def iT : List Char := ['i']
def emT : List Char := ['e', 'm']
def pT : List Char := ['p']

def brMark : List Char := ['<', 'b', 'r', '/', '>']
def bOpenMark : List Char := ['<', 'b', '>']
def bCloseMark : List Char := ['<', '/', 'b', '>']
def iOpenMark : List Char := ['<', 'i', '>']
def iCloseMark : List Char := ['<', '/', 'i', '>']

/-- Method `HTMLToReportLab.handle_starttag` (src/app.py lines 33-50). -/
def handle_starttag (s : ParserState) (tag : List Char) : ParserState :=
  if tag = tableT then
    { s with in_table := true, table_data := [] }
  else if tag = trT ∧ s.in_table = true then
    { s with current_row := [] }
  else if (tag = tdT ∨ tag = thT) ∧ s.in_table = true then
    { s with current_cell := [] }
  else if tag = brT then
    { s with text_parts := s.text_parts ++ [brMark] }
  else if tag = bT ∨ tag = strongT then
    { s with in_bold := true, text_parts := s.text_parts ++ [bOpenMark] }
  else if tag = iT ∨ tag = emT then
    { s with in_italic := true, text_parts := s.text_parts ++ [iOpenMark] }
  else if tag = pT then
    { s with text_parts := s.text_parts ++ [brMark] }
  else s

/-- Python `str.strip()` whitespace test, restricted to the ASCII
whitespace code points (sufficient for the inputs considered here). -/
def isSpaceChar (c : Char) : Bool :=
  c = ' ' || c = '\t' || c = '\n' || c = '\r' || c = '\x0B' || c = '\x0C'

/-- Python `s.strip()`: drop whitespace from both ends. -/
def pyStrip (s : List Char) : List Char :=
  ((s.dropWhile isSpaceChar).reverse.dropWhile isSpaceChar).reverse

/-- Method `HTMLToReportLab.handle_endtag` (src/app.py lines 52-70). -/
def handle_endtag (s : ParserState) (tag : List Char) : ParserState :=
  if tag = tableT then
    { s with in_table := false }
  else if tag = trT ∧ s.in_table = true then
    { s with
      table_data :=
        if s.current_row = [] then s.table_data
        else s.table_data ++ [s.current_row],
      current_row := [] }
  else if (tag = tdT ∨ tag = thT) ∧ s.in_table = true then
    { s with
      current_row := s.current_row ++ [pyStrip s.current_cell.flatten],
      current_cell := [] }
  else if tag = bT ∨ tag = strongT then
    { s with in_bold := false, text_parts := s.text_parts ++ [bCloseMark] }
  else if tag = iT ∨ tag = emT then
    { s with in_italic := false, text_parts := s.text_parts ++ [iCloseMark] }
  else if tag = pT then
    { s with text_parts := s.text_parts ++ [brMark] }
  else s

/-- Method `HTMLToReportLab.handle_data` (src/app.py lines 72-76); the
`self.current_cell is not None` conjunct is always true (see
`ParserState`). -/
def handle_data (s : ParserState) (d : List Char) : ParserState :=
  if s.in_table = true then
    { s with current_cell := s.current_cell ++ [d] }
  else
    { s with text_parts := s.text_parts ++ [d] }

/-- Dispatch of one tokenizer event to the handler it invokes. -/
def step (s : ParserState) (t : Tok) : ParserState :=
  match t with
  | Tok.starttag tag => handle_starttag s tag
  | Tok.endtag tag => handle_endtag s tag
  | Tok.txt d => handle_data s d

/-- Delivery of the event stream in order (`parser.feed(...)`). -/
def feed (s : ParserState) (ts : List Tok) : ParserState :=
  ts.foldl step s

/-- Method `HTMLToReportLab.get_content` (src/app.py lines 78-79). -/
def get_content (s : ParserState) : List Char :=
  s.text_parts.flatten

/-- Method `HTMLToReportLab.get_tables` (src/app.py lines 81-82). -/
def get_tables (s : ParserState) : List (List (List Char)) :=
  s.table_data

/-! ## Tokenizer model

A model of the event stream `html.parser.HTMLParser.feed` delivers for
the simple markup fragments appearing in the claims: tags without
attributes, character data, self-closing tags.  Tag names are
lower-cased; a start tag whose body ends in `/` raises
`handle_startendtag`, whose default delivers a start event followed by
an end event; an unterminated trailing `<...` is buffered by the
tokenizer and (since `close()` is never called in `parse_html_body`)
never delivered. -/

def lowerList (s : List Char) : List Char := s.map Char.toLower

/-- Name of a tag: the characters before any space, slash or the end of
the tag body, lower-cased. -/
def tagName (body : List Char) : List Char :=
  lowerList (body.takeWhile (fun c => !(c == ' ') && !(c == '/')))

/-- Events fired for one `<body>` group. -/
def tagEvents (body : List Char) : List Tok :=
  match body with
  | '/' :: rest => [Tok.endtag (tagName rest)]
  | _ =>
    if body.getLast? = some '/' then
      [Tok.starttag (tagName body), Tok.endtag (tagName body)]
    else
      [Tok.starttag (tagName body)]

def tokenizeAux : Nat → List Char → List Tok
  | 0, _ => []
  | _ + 1, [] => []
  | fuel + 1, '<' :: rest =>
    match List.span (fun c => !(c == '>')) rest with
    | (_, []) => []
    | (body, _ :: rest2) => tagEvents body ++ tokenizeAux fuel rest2
  | fuel + 1, c :: rest =>
    match List.span (fun ch => !(ch == '<')) (c :: rest) with
    | (txt, rest2) => Tok.txt txt :: tokenizeAux fuel rest2

/-- The event stream for a markup string. -/
def tokenize (cs : List Char) : List Tok :=
  tokenizeAux (cs.length + 1) cs

/-- Function `parse_html_body` (src/app.py lines 107-113): feed the markup to a
fresh `HTMLToReportLab` and return `(get_content(), get_tables())`.
The handlers themselves never raise, so the `try/except: pass` around
`feed` leaves the result as written here. -/
def parse_html_body (html_body : List Char) : List Char × List (List (List Char)) :=
  let s := feed initState (tokenize html_body)
  (get_content s, get_tables s)

/-! ## Body block assembly (`msg_to_pdf_bytes`, src/app.py lines 164-191)

The renderer appends one `Paragraph` holding the whole parsed text (when
it is nonempty after `strip()`), then iterates over the value of
`get_tables()` and appends one `Table` element per entry (skipping empty
entries).  Note `get_tables()` is the list of captured rows, so each
entry passed to `Table(...)` is one row. -/

inductive RLBlock where
  | para (s : List Char)
  | table (grid : List (List Char))
deriving Repr, DecidableEq

def assemble_body (content : List Char) (tables : List (List (List Char))) :
    List RLBlock :=
  (if pyStrip content = [] then [] else [RLBlock.para content])
    ++ (tables.filter (fun td => !td.isEmpty)).map RLBlock.table

/-- The body blocks produced for a markup body. -/
def rendered_body_blocks (html_body : List Char) : List RLBlock :=
  let (content, tables) := parse_html_body html_body
  assemble_body content tables

/-! ## Span reconstruction -/

/-- A contiguous run of text with uniform formatting (spec §3). -/
structure Span where
  text : List Char
  bold : Bool
  italic : Bool
deriving Repr, DecidableEq

/-- Modelled from the spec: the repository has no explicit Document
Model type; the scanner emits `<b>`, `</b>`, `<i>`, `</i>` and `<br/>`
markers into its text stream "so spans can be reconstructed" (spec
§4.4).  This function performs that reconstruction: it re-tokenizes the
content string, flushes the accumulated run at every marker, and tags
each run with the bold/italic state the markers encode. -/
def spansOfToks : List Tok → Bool → Bool → List Char → List Span → List Span
  | [], b, i, cur, acc =>
    acc ++ (if cur = [] then [] else [⟨cur, b, i⟩])
  | Tok.txt d :: ts, b, i, cur, acc => spansOfToks ts b i (cur ++ d) acc
  | Tok.starttag tg :: ts, b, i, cur, acc =>
    let acc2 := acc ++ (if cur = [] then [] else [⟨cur, b, i⟩])
    if tg = bT then spansOfToks ts true i [] acc2
    else if tg = iT then spansOfToks ts b true [] acc2
    else spansOfToks ts b i [] acc2
  | Tok.endtag tg :: ts, b, i, cur, acc =>
    let acc2 := acc ++ (if cur = [] then [] else [⟨cur, b, i⟩])
    if tg = bT then spansOfToks ts false i [] acc2
    else if tg = iT then spansOfToks ts b false [] acc2
    else spansOfToks ts b i [] acc2

def spans_of (content : List Char) : List Span :=
  spansOfToks (tokenize content) false false [] []

example : tokenize (("<b>Hi</b> there<br/>").data) =
    [Tok.starttag bT, Tok.txt (('H') :: ('i') :: []), Tok.endtag bT,
     Tok.txt ((' ') :: ('t') :: ('h') :: ('e') :: ('r') :: ('e') :: []),
     Tok.starttag brT, Tok.endtag brT] := by decide

example : parse_html_body (("<table><tr><td>X</td></tr>").data) =
    ([], [[('X') :: []]]) := by decide

/-! ## Scanner lemmas -/

theorem feed_append (s : ParserState) (ts1 ts2 : List Tok) :
    feed s (ts1 ++ ts2) = feed (feed s ts1) ts2 :=
  List.foldl_append ..

theorem start_table_eq (s : ParserState) :
    handle_starttag s tableT = { s with in_table := true, table_data := [] } := by
  simp [handle_starttag]

theorem start_tr_eq (s : ParserState) (h : s.in_table = true) :
    handle_starttag s trT = { s with current_row := [] } := by
  simp +decide [handle_starttag, h]

theorem start_td_eq (s : ParserState) (h : s.in_table = true) :
    handle_starttag s tdT = { s with current_cell := [] } := by
  simp +decide [handle_starttag, h]

theorem end_td_eq (s : ParserState) (h : s.in_table = true) :
    handle_endtag s tdT =
      { s with current_row := s.current_row ++ [pyStrip s.current_cell.flatten],
               current_cell := [] } := by
  simp +decide [handle_endtag, h]

theorem end_tr_eq (s : ParserState) (h : s.in_table = true) :
    handle_endtag s trT =
      { s with
        table_data :=
          if s.current_row = [] then s.table_data
          else s.table_data ++ [s.current_row],
        current_row := [] } := by
  simp +decide [handle_endtag, h]

theorem end_table_eq (s : ParserState) :
    handle_endtag s tableT = { s with in_table := false } := by
  simp [handle_endtag]

theorem data_in_table_eq (s : ParserState) (d : List Char) (h : s.in_table = true) :
    handle_data s d = { s with current_cell := s.current_cell ++ [d] } := by
  simp [handle_data, h]

theorem data_outside_table_eq (s : ParserState) (d : List Char)
    (h : s.in_table = false) :
    handle_data s d = { s with text_parts := s.text_parts ++ [d] } := by
  simp [handle_data, h]

/-! ## Event streams of well-formed tables

Builders for the event stream the tokenizer delivers for a well-formed
table: one start/end pair per cell (with its character data in between
when nonempty), one start/end pair per row, and the surrounding table
pair. -/

def cellTokens (c : List Char) : List Tok :=
  Tok.starttag tdT :: ((if c = [] then [] else [Tok.txt c]) ++ [Tok.endtag tdT])

def rowTokens (r : List (List Char)) : List Tok :=
  Tok.starttag trT :: (r.flatMap cellTokens ++ [Tok.endtag trT])

def tableTokens (rows : List (List (List Char))) : List Tok :=
  Tok.starttag tableT :: (rows.flatMap rowTokens ++ [Tok.endtag tableT])

/-- The rows the scanner captures from a well-formed table: rows with at
least one cell, each cell text whitespace-stripped. -/
def stripRows (rows : List (List (List Char))) : List (List (List Char)) :=
  (rows.filter (fun r => !r.isEmpty)).map (fun r => r.map pyStrip)

theorem stripRows_cons (r : List (List Char)) (rest : List (List (List Char))) :
    stripRows (r :: rest) =
      (if r = [] then [] else [r.map pyStrip]) ++ stripRows rest := by
  by_cases h : r = [] <;> simp [stripRows, List.filter_cons, h]

theorem feed_cellTokens (s : ParserState) (h : s.in_table = true) (c : List Char) :
    feed s (cellTokens c) =
      { s with current_row := s.current_row ++ [pyStrip c], current_cell := [] } := by
  by_cases hc : c = [] <;>
    simp [cellTokens, hc, feed, step, start_td_eq, end_td_eq, data_in_table_eq, h]

theorem feed_cells (s : ParserState) (h : s.in_table = true)
    (hc : s.current_cell = []) (r : List (List Char)) :
    feed s (r.flatMap cellTokens) =
      { s with current_row := s.current_row ++ r.map pyStrip, current_cell := [] } := by
  induction r generalizing s with
  | nil =>
    obtain ⟨tp, it, td, cr, cc, ib, ii⟩ := s
    simp only [List.flatMap_nil] at *
    simp [feed, hc]
  | cons c cs ih =>
    rw [List.flatMap_cons, feed_append, feed_cellTokens s h c]
    rw [ih _ (by simpa using h) (by simp)]
    simp

theorem feed_rowTokens (s : ParserState) (h : s.in_table = true)
    (hc : s.current_cell = []) (r : List (List Char)) :
    feed s (rowTokens r) =
      { s with
        table_data :=
          if r = [] then s.table_data else s.table_data ++ [r.map pyStrip],
        current_row := [], current_cell := [] } := by
  rw [rowTokens]
  show feed (step s (Tok.starttag trT)) (r.flatMap cellTokens ++ [Tok.endtag trT]) = _
  rw [feed_append]
  rw [show step s (Tok.starttag trT) = { s with current_row := [] } from start_tr_eq s h]
  rw [feed_cells _ (by simpa using h) (by simpa using hc) r]
  simp only [List.nil_append]
  show step _ (Tok.endtag trT) = _
  rw [show ∀ u : ParserState, step u (Tok.endtag trT) = handle_endtag u trT from fun _ => rfl]
  rw [end_tr_eq _ (by simpa using h)]
  by_cases hr : r = []
  · simp [hr]
  · simp [hr, List.map_eq_nil_iff]

theorem feed_rows (s : ParserState) (h : s.in_table = true)
    (hc : s.current_cell = []) (hr : s.current_row = [])
    (rows : List (List (List Char))) :
    feed s (rows.flatMap rowTokens) =
      { s with table_data := s.table_data ++ stripRows rows,
               current_row := [], current_cell := [] } := by
  induction rows generalizing s with
  | nil =>
    obtain ⟨tp, it, td, cr, cc, ib, ii⟩ := s
    simp only [List.flatMap_nil] at *
    simp [feed, stripRows, hc, hr]
  | cons r rest ih =>
    rw [List.flatMap_cons, feed_append, feed_rowTokens s h hc r]
    rw [ih _ (by simpa using h) (by simp) (by simp)]
    by_cases hrr : r = [] <;> simp [hrr, stripRows_cons]

theorem feed_tableTokens (s : ParserState)
    (hc : s.current_cell = []) (hr : s.current_row = [])
    (rows : List (List (List Char))) :
    feed s (tableTokens rows) =
      { s with in_table := false, table_data := stripRows rows,
               current_row := [], current_cell := [] } := by
  rw [tableTokens]
  show feed (step s (Tok.starttag tableT)) (rows.flatMap rowTokens ++ [Tok.endtag tableT]) = _
  rw [feed_append]
  rw [show step s (Tok.starttag tableT) = handle_starttag s tableT from rfl, start_table_eq]
  rw [feed_rows _ (by simp) (by simpa using hc) (by simpa using hr) rows]
  show handle_endtag _ tableT = _
  rw [end_table_eq]
  simp

theorem feed_dataRun (s : ParserState) (h : s.in_table = false)
    (ds : List (List Char)) :
    feed s (ds.map Tok.txt) = { s with text_parts := s.text_parts ++ ds } := by
  induction ds generalizing s with
  | nil => simp [feed]
  | cons d rest ih =>
    rw [List.map_cons]
    show feed (step s (Tok.txt d)) (rest.map Tok.txt) = _
    rw [show step s (Tok.txt d) = handle_data s d from rfl, data_outside_table_eq s d h]
    rw [ih _ (by simpa using h)]
    simp

theorem clean_text_idem (y : List Char) :
    clean_text (some (clean_text (some y))) = clean_text (some y) := by
  rw [clean_text_some_eq_filter y, clean_text_some_eq_filter, List.filter_filter]
  apply List.filter_congr
  intro c _
  cases h : (!INVISIBLE_CHARS.contains c) <;> simp [h]

/-! ## Container opening (spec §4.2, §7)

The compound-binary container is opened by `extract_msg.Message`
(src/app.py line 123), library code that is not part of this repository;
the opening step is therefore modelled from the specification.  The
field extraction applied to the opened message is `buildEmail`, embedded
from src/app.py lines 126-134. -/

/-- Modelled from the spec: `ContainerFormatError` is "the only hard
failure this component raises" (spec §4.2). -/
structure ContainerFormatError where
deriving Repr, DecidableEq

/-- Modelled from the spec: a container is structurally valid when it
carries the compound-binary file signature (glossary
"Compound-binary container"). -/
def compoundSignature : List Nat :=
  [0xD0, 0xCF, 0x11, 0xE0, 0xA1, 0xB1, 0x1A, 0xE1]

def isValidContainer (bytes : List Nat) : Bool :=
  decide (bytes.take 8 = compoundSignature)

/-- Modelled from the spec: reading the property map of a structurally
valid container is total, because every decoding problem "degrades to
best-effort or absent rather than raising" (spec §4.2); the concrete
decoded values are out of scope here, so only the plain body carries a
best-effort decoding of the payload bytes. -/
def readProperties (bytes : List Nat) : MsgSource :=
  { sender := none, toAddr := none, cc := none, subject := none,
    date := none,
    body := some ((bytes.drop 8).map (fun b => Char.ofNat b)),
    htmlBody := none }

/-- Modelled from the spec: `extract_email(container_bytes) -> Email |
ContainerFormatError` (spec §6): opening an invalid container is the
single hard failure, a valid one yields the built Email. -/
def extract_email (bytes : List Nat) : Except ContainerFormatError Email :=
  if isValidContainer bytes then Except.ok (buildEmail (readProperties bytes))
  else Except.error ContainerFormatError.mk

/-- Claim C4: the sanitizer is idempotent; every listed invisible code
point is absent from the output while all other code points are kept in
their original order (output = order-preserving filter); absent or empty
input yields the empty string. -/
theorem c4_sanitizer_properties (x : List Char) :
    clean_text (some (clean_text (some x))) = clean_text (some x)
    ∧ clean_text (some x) = x.filter (fun c => !(INVISIBLE_CHARS.contains c))
    ∧ (∀ c, c ∈ INVISIBLE_CHARS → c ∉ clean_text (some x))
    ∧ clean_text none = []
    ∧ clean_text (some []) = [] := by
  refine ⟨clean_text_idem x, clean_text_some_eq_filter x, ?_, rfl, rfl⟩
  intro c hc hmem
  rw [clean_text_some_eq_filter] at hmem
  have hp := List.of_mem_filter hmem
  simp at hp
  exact hp hc

theorem c4_sanitizer_properties_witness :
    ('\u200B' ∉ clean_text (some (('a') :: ('\u200B') :: ('b') :: [])))
    ∧ clean_text (some (('a') :: ('\u200B') :: ('b') :: [])) = ('a') :: ('b') :: [] :=
  ⟨(c4_sanitizer_properties (('a') :: ('\u200B') :: ('b') :: [])).2.2.1 '\u200B' (by decide),
   ((c4_sanitizer_properties (('a') :: ('\u200B') :: ('b') :: [])).2.1).trans (by decide)⟩

/-- Claim C1 (counterexample): the markup body is placed on the Email
without the sanitizer: a source whose markup body is a single zero-width
space yields a `markup_body` holding that code point, which the sanitizer does not
fix. -/
theorem c1_counterexample :
    (buildEmail ⟨none, none, none, none, none, none, some ['\u200B']⟩).markup_body
        = some ['\u200B']
    ∧ clean_text (some ['\u200B']) ≠ ['\u200B'] := by decide

/-- Claim C1 (amended): the six plain text fields (subject, sender, to,
cc, sent_at, plain_body) have the sanitizer applied before being placed
on the Email and are the empty string when absent; the markup body is
placed on the Email unsanitized, and an absent markup body (and likewise
an empty one) is represented as "not present" rather than as an empty
string. -/
theorem c1_email_fields_amended (msg : MsgSource) :
    clean_text (some (buildEmail msg).sender) = (buildEmail msg).sender
    ∧ clean_text (some (buildEmail msg).toAddr) = (buildEmail msg).toAddr
    ∧ clean_text (some (buildEmail msg).cc) = (buildEmail msg).cc
    ∧ clean_text (some (buildEmail msg).subject) = (buildEmail msg).subject
    ∧ clean_text (some (buildEmail msg).sent_at) = (buildEmail msg).sent_at
    ∧ clean_text (some (buildEmail msg).plain_body) = (buildEmail msg).plain_body
    ∧ (msg.sender = none → (buildEmail msg).sender = [])
    ∧ (msg.toAddr = none → (buildEmail msg).toAddr = [])
    ∧ (msg.cc = none → (buildEmail msg).cc = [])
    ∧ (msg.subject = none → (buildEmail msg).subject = [])
    ∧ (msg.date = none → (buildEmail msg).sent_at = [])
    ∧ (msg.body = none → (buildEmail msg).plain_body = [])
    ∧ (msg.htmlBody = none → (buildEmail msg).markup_body = none)
    ∧ (msg.htmlBody = some [] → (buildEmail msg).markup_body = none)
    ∧ (∀ m, msg.htmlBody = some m → m ≠ [] →
        (buildEmail msg).markup_body = some m) := by
  refine ⟨clean_text_idem _, clean_text_idem _, clean_text_idem _,
    clean_text_idem _, clean_text_idem _, clean_text_idem _,
    ?_, ?_, ?_, ?_, ?_, ?_, ?_, ?_, ?_⟩
  all_goals first
    | (intro h; simp [buildEmail, fieldStr, h, clean_text])
    | (intro m hm hne; simp [buildEmail, hm, hne])

theorem c1_email_fields_amended_witness :
    ((buildEmail ⟨none, some ['x'], none, none, none, none, some ['h']⟩).toAddr
        = clean_text (some ['x']))
    ∧ (buildEmail ⟨none, some ['x'], none, none, none, none, some ['h']⟩).sender = []
    ∧ (buildEmail ⟨none, some ['x'], none, none, none, none, some ['h']⟩).markup_body
        = some ['h'] :=
  ⟨by decide,
   (c1_email_fields_amended ⟨none, some ['x'], none, none, none, none, some ['h']⟩).2.2.2.2.2.2.1 rfl,
   (c1_email_fields_amended
      ⟨none, some ['x'], none, none, none, none, some ['h']⟩).2.2.2.2.2.2.2.2.2.2.2.2.2.2
      (['h']) rfl (by decide)⟩

/-- Claim C9: opening a byte sequence that is not a structurally valid
compound-binary container fails with `ContainerFormatError`; a valid one
yields an Email; and `ContainerFormatError` is the only error the
extraction surfaces.  (The container opening is modelled from the spec,
since `extract_msg` is library code outside this repository.) -/
theorem c9_container_error_only (bytes : List Nat) :
    (isValidContainer bytes = false →
      extract_email bytes = Except.error ContainerFormatError.mk)
    ∧ (isValidContainer bytes = true →
      extract_email bytes = Except.ok (buildEmail (readProperties bytes)))
    ∧ (∀ err, extract_email bytes = Except.error err →
        err = ContainerFormatError.mk) := by
  refine ⟨fun h => ?_, fun h => ?_, fun err _ => rfl⟩
  · simp [extract_email, h]
  · simp [extract_email, h]

theorem c9_container_error_only_witness :
    extract_email [] = Except.error ContainerFormatError.mk :=
  (c9_container_error_only []).1 (by decide)

/-- Claim C3 (counterexample): the unterminated markup
`<table><tr><td>X</td></tr>` does NOT yield an empty table list: the row
`["X"]` was completed by its row-close and is retained, so the scan
yields table data `[["X"]]`. -/
theorem c3_counterexample :
    parse_html_body (("<table><tr><td>X</td></tr>").data) = ([], [[['X']]])
    ∧ (parse_html_body (("<table><tr><td>X</td></tr>").data)).2 ≠ [] := by decide

/-- Claim C3 (amended): parsing the unterminated markup
`<table><tr><td>X</td></tr>` completes without error and yields the
complete captured row, i.e. table data `[["X"]]` (only a dangling
incomplete row would have been discarded); the body rendering then emits
a table element for that row. -/
theorem c3_unterminated_table_amended :
    parse_html_body (("<table><tr><td>X</td></tr>").data) = ([], [[['X']]])
    ∧ rendered_body_blocks (("<table><tr><td>X</td></tr>").data)
        = [RLBlock.table [['X']]] := by decide

/-- Claim C5: `parse_html_body` is a total function returning a content
string and a table list for every input; on malformed markup (mixed
case, unknown tags, unmatched close tags, a stray cell tag outside any
table) it still returns a single best-effort text and no tables. -/
theorem c5_parse_total (s : List Char) :
    (∃ content tables, parse_html_body s = (content, tables))
    ∧ parse_html_body (("<B>bold</b><foo>mid</foo><td>cell</i>").data)
        = (("<b>bold</b>midcell</i>").data, []) :=
  ⟨⟨_, _, rfl⟩, by decide⟩

/-- Claim C7: the round-trip markup parses to the content stream whose
reconstructed spans are `[{"Hi", bold}, {" there", plain}]`, followed by
the table block with the single row `["A", "B"]`. -/
theorem c7_round_trip :
    parse_html_body
        (("<b>Hi</b> there<br/><table><tr><td>A</td><td>B</td></tr></table>").data)
      = (("<b>Hi</b> there<br/>").data, [[['A'], ['B']]])
    ∧ spans_of (("<b>Hi</b> there<br/>").data)
      = [⟨('H') :: ('i') :: [], true, false⟩,
         ⟨(' ') :: ('t') :: ('h') :: ('e') :: ('r') :: ('e') :: [], false, false⟩]
    ∧ rendered_body_blocks
        (("<b>Hi</b> there<br/><table><tr><td>A</td><td>B</td></tr></table>").data)
      = [RLBlock.para (("<b>Hi</b> there<br/>").data),
         RLBlock.table [['A'], ['B']]] := by decide

/-- Claim C2 (counterexample): for
`pre<table><tr><td>X</td></tr></table>post` the produced body blocks are
a single merged text block `"prepost"` followed by the table: the text
before and after the table is NOT emitted as separate text blocks around
the table at its source position. -/
theorem c2_counterexample :
    rendered_body_blocks (("pre<table><tr><td>X</td></tr></table>post").data)
      = [RLBlock.para (("prepost").data), RLBlock.table [['X']]]
    ∧ rendered_body_blocks (("pre<table><tr><td>X</td></tr></table>post").data)
      ≠ [RLBlock.para (("pre").data), RLBlock.table [['X']],
         RLBlock.para (("post").data)] := by decide

/-- Claim C2 (amended): all character data outside the table is merged,
in source order, into one content string (the table contributes nothing
to it), the captured rows are returned separately, and the body assembly
emits the single text block (when nonempty) before every table block,
regardless of where the table appeared in the source. -/
theorem c2_text_merged_amended (pre post : List (List Char))
    (rows : List (List (List Char))) :
    get_content (feed initState
        (pre.map Tok.txt ++ (tableTokens rows ++ post.map Tok.txt)))
      = pre.flatten ++ post.flatten
    ∧ get_tables (feed initState
        (pre.map Tok.txt ++ (tableTokens rows ++ post.map Tok.txt)))
      = stripRows rows
    ∧ assemble_body (pre.flatten ++ post.flatten) (stripRows rows)
      = (if pyStrip (pre.flatten ++ post.flatten) = [] then []
         else [RLBlock.para (pre.flatten ++ post.flatten)])
        ++ ((stripRows rows).filter (fun td => !td.isEmpty)).map RLBlock.table := by
  rw [feed_append, feed_dataRun initState rfl pre, feed_append]
  rw [feed_tableTokens _ rfl rfl rows]
  rw [feed_dataRun _ rfl post]
  refine ⟨?_, ?_, rfl⟩
  · simp [get_content, initState]
  · simp [get_tables, initState]

/-- Claim C6 (counterexample): the well-formed single-table markup
`<table><tr></tr><tr><td>A</td></tr></table>` has two row pairs, but the
returned table holds a single row: the empty row pair is discarded. -/
theorem c6_counterexample :
    (parse_html_body (("<table><tr></tr><tr><td>A</td></tr></table>").data)).2
        = [[['A']]]
    ∧ (parse_html_body
        (("<table><tr></tr><tr><td>A</td></tr></table>").data)).2.length ≠ 2 := by
  decide

/-- Claim C6 (amended): for every well-formed single-table event stream,
the returned table consists exactly of the rows that contain at least
one cell pair, in order, each row listing its cells' whitespace-stripped
texts; hence the row count equals the number of non-empty row pairs
(a row pair with zero cell pairs is discarded) and the column count of
each kept row equals the number of cell pairs within it. -/
theorem c6_single_table_amended (rows : List (List (List Char))) :
    get_tables (feed initState (tableTokens rows)) = stripRows rows
    ∧ get_content (feed initState (tableTokens rows)) = []
    ∧ (get_tables (feed initState (tableTokens rows))).length
        = (rows.filter (fun r => !r.isEmpty)).length
    ∧ (∀ r, r ∈ rows → r ≠ [] →
        r.map pyStrip ∈ get_tables (feed initState (tableTokens rows))) := by
  rw [feed_tableTokens initState rfl rfl rows]
  refine ⟨rfl, rfl, by simp [get_tables, stripRows], ?_⟩
  intro r hr hne
  simp only [get_tables, stripRows, List.mem_map]
  exact ⟨r, List.mem_filter.mpr ⟨hr, by simpa using hne⟩, rfl⟩

theorem c6_single_table_amended_witness :
    get_tables (feed initState (tableTokens [[['A']], []])) = [[['A']]]
    ∧ [['A']].map pyStrip ∈ get_tables (feed initState (tableTokens [[['A']], []])) :=
  ⟨((c6_single_table_amended [[['A']], []]).1).trans (by decide),
   (c6_single_table_amended [[['A']], []]).2.2.2 [['A']] (by decide) (by decide)⟩

/-- Claim C8 (counterexample): in
`<table><tr>stray</td></tr></table>` the character data `stray` appears
inside the table but outside any cell (no cell-open tag precedes it);
the scan nevertheless appends it to the cell accumulator, so the parse
yields it as a table cell and the plain-text content stays empty. -/
theorem c8_counterexample :
    parse_html_body (("<table><tr>stray</td></tr></table>").data)
      = ([], [[("stray").data]])
    ∧ (parse_html_body (("<table><tr>stray</td></tr></table>").data)).1
        ≠ ("stray").data := by decide

/-- Claim C8 (amended): character data is routed by the "inside table"
flag, not by being inside a cell: while the scanner is outside a table,
a data event appends its text to the plain-text content (the cell
accumulator is untouched, and the bold/italic formatting is carried by
the marker strings previously emitted into that same stream); while
inside a table — whether or not a cell is open — a data event appends
its text to the cell accumulator and leaves the content untouched. -/
theorem c8_data_routing_amended (pre : List Tok) (d : List Char) :
    ((feed initState pre).in_table = false →
      get_content (feed initState (pre ++ [Tok.txt d]))
          = get_content (feed initState pre) ++ d
      ∧ (feed initState (pre ++ [Tok.txt d])).current_cell
          = (feed initState pre).current_cell)
    ∧ ((feed initState pre).in_table = true →
      (feed initState (pre ++ [Tok.txt d])).current_cell
          = (feed initState pre).current_cell ++ [d]
      ∧ get_content (feed initState (pre ++ [Tok.txt d]))
          = get_content (feed initState pre)) := by
  rw [feed_append]
  rw [show feed (feed initState pre) [Tok.txt d]
      = handle_data (feed initState pre) d from rfl]
  constructor
  · intro h
    rw [data_outside_table_eq _ d h]
    simp [get_content]
  · intro h
    rw [data_in_table_eq _ d h]
    simp [get_content]

theorem c8_data_routing_amended_witness :
    (feed initState []).in_table = false
    ∧ get_content (feed initState ([] ++ [Tok.txt [('x')]]))
        = get_content (feed initState []) ++ [('x')] :=
  ⟨rfl, ((c8_data_routing_amended [] [('x')]).1 rfl).1⟩

/-- Claim C10: a table-open tag resets the table accumulator, so the
rows accumulated before the last table-open never reach the output:
erasing them does not change the returned table data; concretely, of two
successive tables only the rows of the last-opened one are returned, the
earlier rows are discarded rather than emitted as a separate table. -/
theorem c10_last_table_wins (pre post : List Tok) :
    get_tables (feed initState (pre ++ Tok.starttag tableT :: post))
      = get_tables (feed { feed initState pre with table_data := [] }
          (Tok.starttag tableT :: post))
    ∧ parse_html_body
        (("<table><tr><td>A</td></tr></table><table><tr><td>B</td></tr></table>").data)
      = ([], [[['B']]]) := by
  constructor
  · have hstate : handle_starttag (feed initState pre) tableT
        = handle_starttag { feed initState pre with table_data := [] } tableT := by
      rw [start_table_eq, start_table_eq]
    rw [feed_append]
    show get_tables (feed (handle_starttag (feed initState pre) tableT) post)
        = get_tables (feed (handle_starttag
            { feed initState pre with table_data := [] } tableT) post)
    rw [hstate]
  · decide
